import Mathlib

/-!
Verification of the Hyperliquid MCP adapter (`src/server/src/index.ts`)
against its natural-language specification.

The adapter is shallowly embedded here:

* `Js` models JavaScript/JSON values as the adapter observes them.  A
  number is carried as the string produced by JavaScript's
  `Number::toString` (e.g. `0.1`, `50000`), since every observation of a
  number in this code path goes through `String(value)` or
  `JSON.stringify`, both of which emit exactly that rendering.
* `flagName`, `marshalPair`, `marshalArgs` embed the argument marshaller
  of `runBridgeScript` (the `Object.entries(args).flatMap` at
  index.ts:45-48).
* `Config`, `acctFlags`, `bridgeArgs` embed the fixed credential/network
  preamble of `runBridgeScript` (index.ts:40-49).
* `dispatch` embeds the `switch (name)` of the call-tool handler
  (index.ts:399-469): it either throws (`Except.error`, modelling a JS
  `throw`) or produces the full argv passed to the Python bridge script.
* `callTool` embeds the whole call-tool handler, including the
  `try/catch` (index.ts:393-503), parameterised by the behaviour of the
  bridge subprocess (`PythonShell.run` + `JSON.parse`).
* `segMatch`, `matchResource`, `readResourceStep` embed the read-resource
  handler (index.ts:125-191); each regex `^pre([^/]+)suf$` is embedded as
  an anchored prefix/suffix split whose middle is non-empty and
  slash-free.
* `decodeUriComponent` embeds ECMAScript `decodeURIComponent`
  (percent-escapes decoded as UTF-8 byte sequences, `none` modelling a
  thrown `URIError`).
* `toolCatalog`, `listTools`, `resourceCatalog`, `listResources` embed
  the static catalogs served by the list handlers (index.ts:89-122,
  195-391).
-/

/-- A JavaScript value as the adapter observes it.  `jNum` carries the
canonical `Number::toString` rendering of the number (see module comment). -/
inductive Js where
  | jUndefined : Js
  | jNull : Js
  | jBool (b : Bool) : Js
  | jNum (s : String) : Js
  | jStr (s : String) : Js
  | jArr (elems : List Js) : Js
  | jObj (fields : List (String × Js)) : Js

mutual

/-- Size of a `Js` value, used as fuel for the serialisers below (it
dominates the nesting depth). -/
def jsSize : Js → Nat
  | .jUndefined => 1
  | .jNull => 1
  | .jBool _ => 1
  | .jNum _ => 1
  | .jStr _ => 1
  | .jArr xs => 1 + jsSizeL xs
  | .jObj fs => 1 + jsSizeF fs

/-- Summed size of a list of `Js` values. -/
def jsSizeL : List Js → Nat
  | [] => 0
  | x :: xs => jsSize x + jsSizeL xs

/-- Summed size of an object's field list. -/
def jsSizeF : List (String × Js) → Nat
  | [] => 0
  | (_, v) :: fs => jsSize v + jsSizeF fs

end

/-- JavaScript truthiness.  The falsy values are `undefined`, `null`,
`false`, `0`/`-0`/`NaN` (whose `Number::toString` renderings are `"0"` and
`"NaN"`) and the empty string; every object and array is truthy. -/
def truthy : Js → Bool
  | .jUndefined => false
  | .jNull => false
  | .jBool b => b
  | .jNum s => !(s == "0" || s == "NaN")
  | .jStr s => !(s == "")
  | .jArr _ => true
  | .jObj _ => true

/-- `String(value)` / template-literal stringification, on fuel (the fuel is
a structural-recursion device; `jsToString` supplies enough).  Arrays render
as their elements joined by commas with `null`/`undefined` elements rendered
empty, objects as `[object Object]`, per `Array.prototype.toString` and
`Object.prototype.toString`. -/
def jsToStringFuel : Nat → Js → String
  | 0, _ => ""
  | _ + 1, .jUndefined => "undefined"
  | _ + 1, .jNull => "null"
  | _ + 1, .jBool b => cond b "true" "false"
  | _ + 1, .jNum s => s
  | _ + 1, .jStr s => s
  | f + 1, .jArr xs =>
    String.intercalate "," (xs.map fun x =>
      match x with
      | .jUndefined => ""
      | .jNull => ""
      | y => jsToStringFuel f y)
  | _ + 1, .jObj _ => "[object Object]"

/-- `String(value)`. -/
def jsToString (v : Js) : String := jsToStringFuel (jsSize v) v

/-- Hexadecimal digit for `n < 16`, lowercase, as `JSON.stringify` and this
file's escapes use. -/
def hexDigit (n : Nat) : Char :=
  if n < 10 then Char.ofNat (48 + n) else Char.ofNat (87 + n)

/-- JSON string escaping, per `JSON.stringify`: quote, backslash and control
characters are escaped, everything else is copied verbatim. -/
def escChar (c : Char) : List Char :=
  if c = '"' then ['\\', '"']
  else if c = '\\' then ['\\', '\\']
  else if c = '\x08' then ['\\', 'b']
  else if c = '\x09' then ['\\', 't']
  else if c = '\x0a' then ['\\', 'n']
  else if c = '\x0c' then ['\\', 'f']
  else if c = '\x0d' then ['\\', 'r']
  else if c.toNat < 32 then
    ['\\', 'u', '0', '0', hexDigit (c.toNat / 16), hexDigit (c.toNat % 16)]
  else [c]

/-- A JSON string literal: the escaped characters between double quotes. -/
def jsonQuote (s : String) : String :=
  String.mk ('"' :: (s.data.flatMap escChar ++ ['"']))

/-- Whether a field is dropped by `JSON.stringify` when serialising an
object (JS drops `undefined`-valued properties). -/
def dropField (p : String × Js) : Bool :=
  match p.2 with
  | .jUndefined => true
  | _ => false

/-- The indentation in front of a line at nesting depth `d` when the gap
string is `gap` (`JSON.stringify`'s third argument). -/
def mkIndent (gap : String) (d : Nat) : String :=
  String.join (List.replicate d gap)

/-- `JSON.stringify(v, null, gap)` on fuel (structural-recursion device;
the wrappers below supply enough).  `gap = ""` is the compact form;
a non-empty `gap` produces the multi-line form, exactly as ECMAScript's
SerializeJSONObject/SerializeJSONArray do.  `undefined` never reaches this
function at top level in the adapter; as an array element JS renders it
`null`, which is what the catch-all line does. -/
def serFuel : Nat → String → Nat → Js → String
  | 0, _, _, _ => ""
  | _ + 1, _, _, .jUndefined => "null"
  | _ + 1, _, _, .jNull => "null"
  | _ + 1, _, _, .jBool b => cond b "true" "false"
  | _ + 1, _, _, .jNum s => s
  | _ + 1, _, _, .jStr s => jsonQuote s
  | f + 1, gap, d, .jArr xs =>
    match xs with
    | [] => "[]"
    | _ =>
      if gap = "" then
        "[" ++ String.intercalate "," (xs.map (serFuel f gap (d + 1))) ++ "]"
      else
        "[\n" ++
          String.intercalate ",\n"
            (xs.map fun x => mkIndent gap (d + 1) ++ serFuel f gap (d + 1) x) ++
          "\n" ++ mkIndent gap d ++ "]"
  | f + 1, gap, d, .jObj fs =>
    match fs.filter (fun p => !dropField p) with
    | [] => "\x7b\x7d"
    | kept =>
      if gap = "" then
        "\x7b" ++
          String.intercalate ","
            (kept.map fun p => jsonQuote p.1 ++ ":" ++ serFuel f gap (d + 1) p.2) ++
          "\x7d"
      else
        "\x7b\n" ++
          String.intercalate ",\n"
            (kept.map fun p =>
              mkIndent gap (d + 1) ++ jsonQuote p.1 ++ ": " ++ serFuel f gap (d + 1) p.2) ++
          "\n" ++ mkIndent gap d ++ "\x7d"

/-- `JSON.stringify(v)` (compact), as used for the order-type flag at
index.ts:422-426. -/
def stringifyCompact (v : Js) : String := serFuel (jsSize v + 1) "" 0 v

/-- `JSON.stringify(v, null, 2)`, as used for every tool/resource success
payload. -/
def stringifyPretty (v : Js) : String := serFuel (jsSize v + 1) "  " 0 v

/-- The field-name-to-flag conversion of the marshaller, per character:
`key.replace(/([A-Z])/g, '-$1').toLowerCase()` inserts a hyphen before each
(ASCII) uppercase letter and then lowercases the whole string
(index.ts:47). -/
def flagChar (c : Char) : List Char :=
  if c.isUpper then ['-', c.toLower] else [c.toLower]

/-- The flag name derived from a bridge-argument field name. -/
def flagName (k : String) : String := String.mk (k.data.flatMap flagChar)

/-- One entry of `Object.entries(args).flatMap(...)` (index.ts:45-48):
`undefined` and `null` values produce no flag at all; any other value
produces the flag name followed by `String(value)`. -/
def marshalPair (k : String) (v : Js) : List String :=
  match v with
  | .jUndefined => []
  | .jNull => []
  | _ => ["--" ++ flagName k, jsToString v]

/-- The call-specific flag sequence for a bridge-argument record, in
insertion order. -/
def marshalArgs (args : List (String × Js)) : List String :=
  args.flatMap fun p => marshalPair p.1 p.2

/-- Process-wide configuration (index.ts:25-27): required secret key,
optional account address (`none` models an unset environment variable),
network selector. -/
structure Config where
  secretKey : String
  accountAddress : Option String
  network : String

/-- `ACCOUNT_ADDRESS ? ['--account-address', ACCOUNT_ADDRESS] : []`
(index.ts:44).  JS truthiness makes both an unset variable and an empty
string produce no flags. -/
def acctFlags (cfg : Config) : List String :=
  match cfg.accountAddress with
  | some a => if a = "" then [] else ["--account-address", a]
  | none => []

/-- The full argv handed to the Python bridge script (index.ts:40-49):
command, fixed credential/network flags, optional account address, then the
marshalled call-specific flags. -/
def bridgeArgs (cfg : Config) (command : String) (args : List (String × Js)) : List String :=
  command :: "--secret-key" :: cfg.secretKey :: "--network" :: cfg.network ::
    (acctFlags cfg ++ marshalArgs args)

/-- The fixed part of the argv, before the call-specific flags. -/
def preamble (cfg : Config) (command : String) : List String :=
  command :: "--secret-key" :: cfg.secretKey :: "--network" :: cfg.network :: acctFlags cfg

/-- A thrown JavaScript exception as the call-tool handler distinguishes
them: a plain `Error` (whose `.message` is the constructor argument) or an
SDK `McpError` (whose constructor sets
`.message = "MCP error " + code + ": " + message`). -/
inductive Thrown where
  | jsError (msg : String) : Thrown
  | mcpError (code : Int) (msg : String) : Thrown

/-- `error.message` of a thrown exception, as read by the catch block at
index.ts:497. -/
def errMessage : Thrown → String
  | .jsError m => m
  | .mcpError c m => "MCP error " ++ toString c ++ ": " ++ m

/-- Property access `obj[k]` on the JS side: `undefined` on a non-object or
a missing key; with duplicate keys the later entry wins, as in a JS
object. -/
def argGet (a : List (String × Js)) (k : String) : Js :=
  match a.reverse.lookup k with
  | some v => v
  | none => .jUndefined

/-- `result.error` on a decoded bridge result — property access `v[k]` with
JS semantics: on `null` or `undefined` it throws a `TypeError` (V8's message
text), on any other non-object it yields `undefined`, on an object it looks
the key up. -/
def propAccess (v : Js) (k : String) : Except Thrown Js :=
  match v with
  | .jNull =>
    .error (.jsError ("Cannot read properties of null (reading '" ++ k ++ "')"))
  | .jUndefined =>
    .error (.jsError ("Cannot read properties of undefined (reading '" ++ k ++ "')"))
  | .jObj fs => .ok (argGet fs k)
  | _ => .ok .jUndefined

/-- The body of the call-tool `switch (name)` (index.ts:399-469), up to the
point the bridge subprocess is spawned: either a thrown exception (unknown
tool → `McpError(ErrorCode.MethodNotFound, ...)` with code `-32601`; missing
arguments object → `Error('Arguments are required')`) or the full argv of
the bridge invocation that is spawned.  No per-field validation occurs:
each case projects the (possibly `undefined`) argument fields straight into
the bridge-argument record. -/
def dispatch (cfg : Config) (name : String) (args? : Option (List (String × Js))) :
    Except Thrown (List String) :=
  match name with
  | "get_market_data" =>
    match args? with
    | none => .error (.jsError "Arguments are required")
    | some a =>
      .ok (bridgeArgs cfg "market-data"
        [("dataType", argGet a "dataType"), ("coin", argGet a "coin"),
         ("interval", argGet a "interval"), ("startTime", argGet a "startTime"),
         ("endTime", argGet a "endTime")])
  | "get_user_data" =>
    match args? with
    | none => .error (.jsError "Arguments are required")
    | some a =>
      .ok (bridgeArgs cfg "user-data"
        [("dataType", argGet a "dataType"), ("startTime", argGet a "startTime"),
         ("endTime", argGet a "endTime")])
  | "place_limit_order" =>
    match args? with
    | none => .error (.jsError "Arguments are required")
    | some a =>
      .ok (bridgeArgs cfg "place-order"
        [("coin", argGet a "coin"),
         ("isBuy", .jStr (cond (truthy (argGet a "isBuy")) "true" "false")),
         ("size", argGet a "size"), ("price", argGet a "price"),
         ("orderType",
          .jStr (stringifyCompact (.jObj [("limit", .jObj [("tif", argGet a "timeInForce")])]))),
         ("reduceOnly", .jStr (cond (truthy (argGet a "reduceOnly")) "true" "false")),
         ("cloid", argGet a "clientOrderId")])
  | "place_market_order" =>
    match args? with
    | none => .error (.jsError "Arguments are required")
    | some a =>
      .ok (bridgeArgs cfg "market-order"
        [("coin", argGet a "coin"),
         ("isBuy", .jStr (cond (truthy (argGet a "isBuy")) "true" "false")),
         ("size", argGet a "size"), ("slippage", argGet a "slippage"),
         ("cloid", argGet a "clientOrderId")])
  | "cancel_order" =>
    match args? with
    | none => .error (.jsError "Arguments are required")
    | some a =>
      .ok (bridgeArgs cfg "cancel-order"
        [("coin", argGet a "coin"), ("oid", argGet a "orderId"),
         ("cloid", argGet a "clientOrderId")])
  | "update_leverage" =>
    match args? with
    | none => .error (.jsError "Arguments are required")
    | some a =>
      .ok (bridgeArgs cfg "update-leverage"
        [("coin", argGet a "coin"), ("leverage", argGet a "leverage"),
         ("isCross",
          .jStr (match argGet a "isCross" with
                 | .jUndefined => "true"
                 | v => cond (truthy v) "true" "false"))])
  | _ => .error (.mcpError (-32601) ("Unknown tool: " ++ name))

/-- The response the call-tool handler hands back to the SDK: a tool result
(text content + error flag) or a protocol (JSON-RPC) error that would reach
the host as a failed request.  The handler's own `try/catch` means it only
ever produces `result`; `protocol` exists so statements can distinguish the
two outcomes the spec talks about. -/
inductive ToolResponse where
  | result (text : String) (isErr : Bool) : ToolResponse
  | protocol (code : Int) (msg : String) : ToolResponse

/-- Derived view of `dispatch`: the bridge invocation (full argv) that the
handler spawns for this call, if any.  `PythonShell.run` is called exactly
when `dispatch` succeeds. -/
def spawnedInvocation (cfg : Config) (name : String)
    (args? : Option (List (String × Js))) : Option (List String) :=
  match dispatch cfg name args? with
  | .ok argv => some argv
  | .error _ => none

/-- The whole call-tool handler (index.ts:393-503).  `bridge` models the
bridge subprocess plus `JSON.parse` of its first stdout line: it either
throws or yields the decoded JSON result.  Every throw — from the switch
itself, from the bridge, or the `TypeError` that the `result.error` read at
index.ts:471 itself raises when the decoded result is `null` — is caught by
the catch-all at index.ts:491-502 and converted to an error-flagged tool
result; a truthy `result.error` yields the business-error text; anything
else is pretty-printed. -/
def callTool (cfg : Config) (bridge : List String → Except Thrown Js)
    (name : String) (args? : Option (List (String × Js))) : ToolResponse :=
  match dispatch cfg name args? with
  | .error e => .result ("Error executing tool " ++ name ++ ": " ++ errMessage e) true
  | .ok argv =>
    match bridge argv with
    | .error e => .result ("Error executing tool " ++ name ++ ": " ++ errMessage e) true
    | .ok r =>
      match propAccess r "error" with
      | .error e => .result ("Error executing tool " ++ name ++ ": " ++ errMessage e) true
      | .ok errv =>
        if truthy errv then
          .result ("Error: " ++ jsToString errv) true
        else
          .result (stringifyPretty r) false

/-- Anchored match of the regex `^pre([^/]+)suf$` against `s` (one capture
group matching one or more characters other than `/`): the captured middle,
or `none`.  This embeds each of the three resource-URI regexes at
index.ts:143, 159 and 175. -/
def segMatch (pre suf s : List Char) : Option (List Char) :=
  if pre.length + suf.length < s.length ∧ s.take pre.length = pre ∧
      s.drop (s.length - suf.length) = suf then
    if ((s.drop pre.length).take (s.length - pre.length - suf.length)).contains '/' then none
    else some ((s.drop pre.length).take (s.length - pre.length - suf.length))
  else none

/-- Value of one hexadecimal digit, or `none`. -/
def hexVal (c : Char) : Option Nat :=
  if '0' ≤ c ∧ c ≤ '9' then some (c.toNat - 48)
  else if 'A' ≤ c ∧ c ≤ 'F' then some (c.toNat - 55)
  else if 'a' ≤ c ∧ c ≤ 'f' then some (c.toNat - 87)
  else none

/-- First pass of `decodeURIComponent`: each `%XX` escape becomes the byte
it denotes, every other character passes through; a `%` not followed by two
hexadecimal digits is a `URIError` (`none`). -/
def percentTokens : List Char → Option (List (Sum Char Nat))
  | [] => some []
  | '%' :: h1 :: h2 :: rest =>
    match hexVal h1, hexVal h2 with
    | some a, some b => (percentTokens rest).map (Sum.inr (16 * a + b) :: ·)
    | _, _ => none
  | '%' :: _ => none
  | c :: rest => (percentTokens rest).map (Sum.inl c :: ·)

/-- Whether a byte is a UTF-8 continuation byte. -/
def contB (b : Nat) : Bool := decide (0x80 ≤ b ∧ b ≤ 0xBF)

/-- Allowed second byte of a three-byte UTF-8 sequence starting with `b1`
(the E0/ED special ranges exclude overlong encodings and surrogates). -/
def cont3Ok (b1 b2 : Nat) : Bool :=
  if b1 = 0xE0 then decide (0xA0 ≤ b2 ∧ b2 ≤ 0xBF)
  else if b1 = 0xED then decide (0x80 ≤ b2 ∧ b2 ≤ 0x9F)
  else contB b2

/-- Allowed second byte of a four-byte UTF-8 sequence starting with `b1`
(the F0/F4 special ranges exclude overlong encodings and values above
U+10FFFF). -/
def cont4Ok (b1 b2 : Nat) : Bool :=
  if b1 = 0xF0 then decide (0x90 ≤ b2 ∧ b2 ≤ 0xBF)
  else if b1 = 0xF4 then decide (0x80 ≤ b2 ∧ b2 ≤ 0x8F)
  else contB b2

/-- Second pass of `decodeURIComponent`: escape-derived bytes are decoded
as (strict) UTF-8, with continuation bytes required to come from escapes;
any malformed sequence is a `URIError` (`none`). -/
def utf8Decode : List (Sum Char Nat) → Option (List Char)
  | [] => some []
  | .inl c :: rest => (utf8Decode rest).map (c :: ·)
  | .inr b1 :: rest =>
    if b1 ≤ 0x7F then (utf8Decode rest).map (Char.ofNat b1 :: ·)
    else if 0xC2 ≤ b1 ∧ b1 ≤ 0xDF then
      match rest with
      | .inr b2 :: rest2 =>
        if contB b2 then
          (utf8Decode rest2).map (Char.ofNat ((b1 - 0xC0) * 0x40 + (b2 - 0x80)) :: ·)
        else none
      | _ => none
    else if 0xE0 ≤ b1 ∧ b1 ≤ 0xEF then
      match rest with
      | .inr b2 :: .inr b3 :: rest3 =>
        if cont3Ok b1 b2 && contB b3 then
          (utf8Decode rest3).map
            (Char.ofNat ((b1 - 0xE0) * 0x1000 + (b2 - 0x80) * 0x40 + (b3 - 0x80)) :: ·)
        else none
      | _ => none
    else if 0xF0 ≤ b1 ∧ b1 ≤ 0xF4 then
      match rest with
      | .inr b2 :: .inr b3 :: .inr b4 :: rest4 =>
        if cont4Ok b1 b2 && contB b3 && contB b4 then
          (utf8Decode rest4).map
            (Char.ofNat ((b1 - 0xF0) * 0x40000 + (b2 - 0x80) * 0x1000 +
              (b3 - 0x80) * 0x40 + (b4 - 0x80)) :: ·)
        else none
      | _ => none
    else none

/-- ECMAScript `decodeURIComponent` on a captured URI segment; `none`
models a thrown `URIError`. -/
def decodeUriComponent (l : List Char) : Option String :=
  match percentTokens l with
  | none => none
  | some ts => (utf8Decode ts).map String.mk

/-- Outcome of matching a URI against the read-resource handler's checks,
in source order (index.ts:129-190): the literal all-mids URI, then the
three regexes, each carrying its raw (not yet decoded) captured segment. -/
inductive ResMatch where
  | allMids : ResMatch
  | l2Book (seg : List Char) : ResMatch
  | userState (seg : List Char) : ResMatch
  | openOrders (seg : List Char) : ResMatch
  | noMatch : ResMatch
deriving DecidableEq

/-- The read-resource handler's URI matching, exactly in source order:
literal equality first, then the three anchored regexes. -/
def matchResource (uri : String) : ResMatch :=
  if uri = "hyperliquid://market/all-mids" then .allMids
  else
    match segMatch "hyperliquid://market/l2-book/".data [] uri.data with
    | some seg => .l2Book seg
    | none =>
      match segMatch "hyperliquid://user/".data "/state".data uri.data with
      | some seg => .userState seg
      | none =>
        match segMatch "hyperliquid://user/".data "/open-orders".data uri.data with
        | some seg => .openOrders seg
        | none => .noMatch

/-- What the read-resource handler does before the bridge result comes
back: spawn a bridge invocation (the argv), throw an SDK `McpError` that
reaches the host as a protocol error, or throw a `URIError` from
`decodeURIComponent`. -/
inductive ReadStep where
  | invoke (argv : List String) : ReadStep
  | protoError (code : Int) (msg : String) : ReadStep
  | uriThrow : ReadStep
deriving DecidableEq

/-- The read-resource handler (index.ts:125-191) up to the bridge call.
The decoded address of the two user resources is bound and then never used:
both invocations carry only the fixed flags and the data-type flag.  An
unmatched URI throws `McpError(ErrorCode.InvalidRequest, ...)`, code
`-32600`. -/
def readResourceStep (cfg : Config) (uri : String) : ReadStep :=
  match matchResource uri with
  | .allMids => .invoke (bridgeArgs cfg "market-data" [("dataType", .jStr "all_mids")])
  | .l2Book seg =>
    match decodeUriComponent seg with
    | some coin =>
      .invoke (bridgeArgs cfg "market-data"
        [("dataType", .jStr "l2_snapshot"), ("coin", .jStr coin)])
    | none => .uriThrow
  | .userState seg =>
    match decodeUriComponent seg with
    | some _ => .invoke (bridgeArgs cfg "user-data" [("dataType", .jStr "user_state")])
    | none => .uriThrow
  | .openOrders seg =>
    match decodeUriComponent seg with
    | some _ => .invoke (bridgeArgs cfg "user-data" [("dataType", .jStr "open_orders")])
    | none => .uriThrow
  | .noMatch => .protoError (-32600) ("Invalid URI format: " ++ uri)

/-- A concrete (non-parametrised) resource descriptor, as advertised by the
list-resources handler. -/
structure ResourceDescr where
  uri : String
  rname : String
  mimeType : String
  description : String
deriving DecidableEq

/-- The fixed resource catalog (index.ts:89-98). -/
def resourceCatalog : List ResourceDescr :=
  [{ uri := "hyperliquid://market/all-mids",
     rname := "Current mid prices for all coins",
     mimeType := "application/json",
     description := "Real-time mid prices for all actively traded coins on Hyperliquid" }]

/-- A resource-template descriptor, as advertised by the
list-resource-templates handler. -/
structure ResourceTemplateDescr where
  uriTemplate : String
  rname : String
  mimeType : String
  description : String
deriving DecidableEq

/-- The fixed resource-template catalog (index.ts:101-122), in declaration
order. -/
def resourceTemplateCatalog : List ResourceTemplateDescr :=
  [{ uriTemplate := "hyperliquid://market/l2-book/{coin}",
     rname := "L2 order book for a specific coin",
     mimeType := "application/json",
     description := "Order book data for a specific coin on Hyperliquid" },
   { uriTemplate := "hyperliquid://user/{address}/state",
     rname := "User state for a specific address",
     mimeType := "application/json",
     description := "Trading details about a user including positions, margin, and account value" },
   { uriTemplate := "hyperliquid://user/{address}/open-orders",
     rname := "Open orders for a specific address",
     mimeType := "application/json",
     description := "List of open orders for a specific user" }]

/-- The list-resources handler: a pure function of no state. -/
def listResources : Unit → List ResourceDescr := fun _ => resourceCatalog

/-- The list-resource-templates handler: a pure function of no state. -/
def listResourceTemplates : Unit → List ResourceTemplateDescr := fun _ => resourceTemplateCatalog

/-- The characters of a template before its `{param}` placeholder. -/
def tplPre (t : String) : List Char := t.data.takeWhile (· ≠ '\x7b')

/-- The characters of a template after its `{param}` placeholder. -/
def tplSuf (t : String) : List Char := (t.data.dropWhile (· ≠ '\x7d')).drop 1

/-- Spec-side matcher over a template list: each template, in declaration
order, is tried as an anchored match whose `\x7bparam\x7d` placeholder
matches one or more non-`/` characters; the first match wins. -/
def specGo (uri : String) : List (ResourceTemplateDescr × (List Char → ResMatch)) → ResMatch
  | [] => .noMatch
  | (t, mk) :: rest =>
    match segMatch (tplPre t.uriTemplate) (tplSuf t.uriTemplate) uri.data with
    | some mid => mk mid
    | none => specGo uri rest

/-- Matcher written from the spec's words (§4.1): the literal URIs of the
resource catalog are checked first by exact string equality; failing that,
each declared template is tried in declaration order as an anchored match
derived from its advertised `uriTemplate` string. -/
def specMatch (uri : String) : ResMatch :=
  if (resourceCatalog.map ResourceDescr.uri).contains uri then .allMids
  else
    specGo uri (resourceTemplateCatalog.zip [ResMatch.l2Book, ResMatch.userState, ResMatch.openOrders])

/-- A tool descriptor as advertised by the list-tools handler: its dispatch
name, description, declared field names (of `inputSchema.properties`, in
declaration order), required set, and the `oneOf` alternative-required sets
(only `cancel_order` has any). -/
structure ToolDescr where
  tname : String
  description : String
  fieldNames : List String
  required : List String
  oneOfRequired : List (List String)
deriving DecidableEq

/-- The fixed tool catalog (index.ts:195-391). -/
def toolCatalog : List ToolDescr :=
  [{ tname := "get_market_data",
     description := "Get market data from Hyperliquid",
     fieldNames := ["dataType", "coin", "interval", "startTime", "endTime"],
     required := ["dataType"], oneOfRequired := [] },
   { tname := "get_user_data",
     description := "Get user-specific data from Hyperliquid",
     fieldNames := ["dataType", "startTime", "endTime"],
     required := ["dataType"], oneOfRequired := [] },
   { tname := "place_limit_order",
     description := "Place a limit order on Hyperliquid",
     fieldNames := ["coin", "isBuy", "size", "price", "timeInForce", "reduceOnly", "clientOrderId"],
     required := ["coin", "isBuy", "size", "price", "timeInForce"], oneOfRequired := [] },
   { tname := "place_market_order",
     description := "Place a market order on Hyperliquid",
     fieldNames := ["coin", "isBuy", "size", "slippage", "clientOrderId"],
     required := ["coin", "isBuy", "size"], oneOfRequired := [] },
   { tname := "cancel_order",
     description := "Cancel an order on Hyperliquid",
     fieldNames := ["coin", "orderId", "clientOrderId"],
     required := ["coin"], oneOfRequired := [["orderId"], ["clientOrderId"]] },
   { tname := "update_leverage",
     description := "Update leverage for a coin",
     fieldNames := ["coin", "leverage", "isCross"],
     required := ["coin", "leverage"], oneOfRequired := [] }]

/-- The list-tools handler: a pure function of no state. -/
def listTools : Unit → List ToolDescr := fun _ => toolCatalog

/-- A concrete configuration for closed statements. -/
def cfg0 : Config := { secretKey := "k", accountAddress := none, network := "mainnet" }

/-- A concrete bridge behaviour for closed statements. -/
def bridge0 : List String → Except Thrown Js := fun _ => .ok .jNull

/-! ## Helper lemmas -/

/-- Correctness of the regex embedding: `segMatch pre suf s` captures `mid`
exactly when `s` decomposes as `pre ++ mid ++ suf` with `mid` non-empty and
slash-free — the semantics of the anchored pattern `^pre([^/]+)suf$`. -/
theorem segMatch_some_iff (pre suf s mid : List Char) :
    segMatch pre suf s = some mid ↔
      s = pre ++ (mid ++ suf) ∧ mid ≠ [] ∧ mid.contains '/' = false := by
  constructor
  · intro h
    unfold segMatch at h
    split at h
    case isFalse => exact absurd h (by simp)
    case isTrue hc =>
      obtain ⟨hlen, hpre, hsuf⟩ := hc
      split at h
      case isTrue => exact absurd h (by simp)
      case isFalse hnc =>
        have hmid : (s.drop pre.length).take (s.length - pre.length - suf.length) = mid := by
          injection h
        have hdrop : (s.drop pre.length).drop (s.length - pre.length - suf.length) = suf := by
          rw [List.drop_drop]
          have heq : pre.length + (s.length - pre.length - suf.length) = s.length - suf.length := by
            omega
          rw [heq, hsuf]
        refine ⟨?_, ?_, ?_⟩
        · conv_lhs => rw [← List.take_append_drop pre.length s]
          rw [hpre]
          congr 1
          conv_lhs =>
            rw [← List.take_append_drop (s.length - pre.length - suf.length) (s.drop pre.length)]
          rw [hmid, hdrop]
        · rw [← hmid]
          have hpos :
              0 < (List.take (s.length - pre.length - suf.length) (s.drop pre.length)).length := by
            rw [List.length_take, List.length_drop]
            omega
          exact List.length_pos.mp hpos
        · rw [← hmid]
          exact Bool.not_eq_true _ |>.mp hnc
  · rintro ⟨hs, hne, hsl⟩
    subst hs
    have hmlen : 0 < mid.length := List.length_pos.mpr hne
    have hcond : pre.length + suf.length < (pre ++ (mid ++ suf)).length ∧
        (pre ++ (mid ++ suf)).take pre.length = pre ∧
        (pre ++ (mid ++ suf)).drop ((pre ++ (mid ++ suf)).length - suf.length) = suf := by
      refine ⟨by simp only [List.length_append]; omega, List.take_left pre (mid ++ suf), ?_⟩
      have hassoc : pre ++ (mid ++ suf) = (pre ++ mid) ++ suf := by
        rw [List.append_assoc]
      have hlen2 : (pre ++ (mid ++ suf)).length - suf.length = (pre ++ mid).length := by
        simp only [List.length_append]; omega
      rw [hlen2, hassoc, List.drop_left]
    unfold segMatch
    rw [if_pos hcond]
    have hmid2 : ((pre ++ (mid ++ suf)).drop pre.length).take
        ((pre ++ (mid ++ suf)).length - pre.length - suf.length) = mid := by
      rw [List.drop_left]
      have hlen3 : (pre ++ (mid ++ suf)).length - pre.length - suf.length = mid.length := by
        simp only [List.length_append]; omega
      rw [hlen3]
      exact List.take_left mid suf
    rw [hmid2, if_neg (by rw [hsl]; exact Bool.false_ne_true)]

/-- Any URI of the shape `hyperliquid://user/<seg>/state` with a non-empty,
slash-free segment reaches the user-state branch of the matcher, carrying
the raw segment. -/
theorem matchResource_userState (a : List Char) (hne : a ≠ [])
    (hsl : a.contains '/' = false) :
    matchResource (String.mk ("hyperliquid://user/".data ++ (a ++ "/state".data))) =
      .userState a := by
  unfold matchResource
  rw [if_neg ?hlit]
  case hlit =>
    intro heq
    have hd := congrArg String.data heq
    have h14 : ("hyperliquid://user/".data ++ (a ++ "/state".data))[14]? =
        ("hyperliquid://market/all-mids" : String).data[14]? := congrArg (fun l => l[14]?) hd
    rw [List.getElem?_append, if_pos (by decide)] at h14
    exact absurd h14 (by decide)
  cases hL2 : segMatch "hyperliquid://market/l2-book/".data []
      ("hyperliquid://user/".data ++ (a ++ "/state".data)) with
  | some m =>
    exfalso
    obtain ⟨hdec, -, -⟩ := (segMatch_some_iff _ _ _ _).mp hL2
    have h14 : ("hyperliquid://user/".data ++ (a ++ "/state".data))[14]? =
        ("hyperliquid://market/l2-book/".data ++ (m ++ []))[14]? :=
      congrArg (fun l => l[14]?) hdec
    rw [List.getElem?_append, if_pos (by decide), List.getElem?_append,
      if_pos (by decide)] at h14
    exact absurd h14 (by decide)
  | none =>
    rw [(segMatch_some_iff "hyperliquid://user/".data "/state".data _ a).mpr ⟨rfl, hne, hsl⟩]

/-- Any URI of the shape `hyperliquid://user/<seg>/open-orders` with a
non-empty, slash-free segment reaches the open-orders branch of the
matcher, carrying the raw segment. -/
theorem matchResource_openOrders (a : List Char) (hne : a ≠ [])
    (hsl : a.contains '/' = false) :
    matchResource (String.mk ("hyperliquid://user/".data ++ (a ++ "/open-orders".data))) =
      .openOrders a := by
  unfold matchResource
  rw [if_neg ?hlit]
  case hlit =>
    intro heq
    have hd := congrArg String.data heq
    have h14 : ("hyperliquid://user/".data ++ (a ++ "/open-orders".data))[14]? =
        ("hyperliquid://market/all-mids" : String).data[14]? := congrArg (fun l => l[14]?) hd
    rw [List.getElem?_append, if_pos (by decide)] at h14
    exact absurd h14 (by decide)
  cases hL2 : segMatch "hyperliquid://market/l2-book/".data []
      ("hyperliquid://user/".data ++ (a ++ "/open-orders".data)) with
  | some m =>
    exfalso
    obtain ⟨hdec, -, -⟩ := (segMatch_some_iff _ _ _ _).mp hL2
    have h14 : ("hyperliquid://user/".data ++ (a ++ "/open-orders".data))[14]? =
        ("hyperliquid://market/l2-book/".data ++ (m ++ []))[14]? :=
      congrArg (fun l => l[14]?) hdec
    rw [List.getElem?_append, if_pos (by decide), List.getElem?_append,
      if_pos (by decide)] at h14
    exact absurd h14 (by decide)
  | none =>
    cases hSt : segMatch "hyperliquid://user/".data "/state".data
        ("hyperliquid://user/".data ++ (a ++ "/open-orders".data)) with
    | some m =>
      exfalso
      obtain ⟨hdec, -, -⟩ := (segMatch_some_iff _ _ _ _).mp hSt
      have hc := List.append_cancel_left hdec
      have hrev := congrArg (fun l => l.reverse[0]?) hc
      simp only [List.reverse_append] at hrev
      rw [List.getElem?_append, if_pos (by decide), List.getElem?_append,
        if_pos (by decide)] at hrev
      exact absurd hrev (by decide)
    | none =>
      rw [(segMatch_some_iff "hyperliquid://user/".data "/open-orders".data _ a).mpr
        ⟨rfl, hne, hsl⟩]

/-! ## Claims -/

/-- Claim C1 (code_bug evaluation).  The claim says an unknown tool name
yields a method-not-found protocol error, and the switch does throw
`McpError(ErrorCode.MethodNotFound)` (code `-32601`, index.ts:468) — but
that throw happens inside the handler's own `try`, so the catch-all at
index.ts:491-502 converts it into an error-flagged tool result carrying the
`McpError`'s message.  Evaluated at the unknown name `get_positions`: the
host receives a tool result with the error flag set, not a protocol
error. -/
theorem claim_C1_code_eval :
    callTool cfg0 bridge0 "get_positions" none =
      .result
        "Error executing tool get_positions: MCP error -32601: Unknown tool: get_positions"
        true := by
  rfl

/-- Claim C2, counterexample.  A `cancel_order` call supplying neither
`orderId` nor `clientOrderId` is *not* rejected: `dispatch` succeeds — so
`PythonShell.run` is reached — and the spawned `cancel-order` invocation
carries only the coin flag (`--oid`/`--cloid` are dropped, not checked). -/
theorem claim_C2_counterexample :
    spawnedInvocation cfg0 "cancel_order" (some [("coin", Js.jStr "BTC")]) =
      some ["cancel-order", "--secret-key", "k", "--network", "mainnet", "--coin", "BTC"] := by
  rfl

/-- Claim C2, amended.  The call-tool handler validates only that an
arguments object is present (`if (!args) throw`, index.ts:450); it performs
no per-field validation of the descriptor's required set.  In particular a
`cancel_order` call always spawns a `cancel-order` bridge invocation
whatever fields it supplies, and with only `coin` supplied the invocation's
call-specific flags are exactly `--coin <value>`. -/
theorem claim_C2_amended :
    (∀ cfg, dispatch cfg "cancel_order" none = .error (.jsError "Arguments are required"))
    ∧ (∀ cfg args, ∃ argv, spawnedInvocation cfg "cancel_order" (some args) = some argv)
    ∧ (∀ cfg, spawnedInvocation cfg "cancel_order" (some [("coin", Js.jStr "ETH")]) =
        some (preamble cfg "cancel-order" ++ ["--coin", "ETH"])) := by
  refine ⟨fun cfg => rfl, fun cfg args => ⟨_, rfl⟩, fun cfg => rfl⟩

/-- Claim C3, counterexample.  `place_limit_order` called with only its
required fields — `reduceOnly` (an optional field) absent — still produces
the flag `--reduce-only false` in the bridge invocation, because of the
`args.reduceOnly ? 'true' : 'false'` defaulting at index.ts:433.  So it is
not the case that every absent optional field produces no flag. -/
theorem claim_C3_counterexample :
    spawnedInvocation cfg0 "place_limit_order"
        (some [("coin", Js.jStr "BTC"), ("isBuy", Js.jBool true), ("size", Js.jNum "0.1"),
               ("price", Js.jNum "50000"), ("timeInForce", Js.jStr "Gtc")]) =
      some ["place-order", "--secret-key", "k", "--network", "mainnet",
            "--coin", "BTC", "--is-buy", "true", "--size", "0.1", "--price", "50000",
            "--order-type", "\x7b\"limit\":\x7b\"tif\":\"Gtc\"\x7d\x7d",
            "--reduce-only", "false"] := by
  rfl

/-- Claim C3, amended.  The marshaller itself drops `undefined` and `null`
values entirely (first conjunct), and for every tool an absent optional
field produces no flag — except the two boolean fields the dispatcher
defaults before marshalling: `place_limit_order`'s `reduceOnly` becomes
`--reduce-only false` and `update_leverage`'s `isCross` becomes
`--is-cross true`.  Each remaining conjunct pins the exact flag sequence of
one tool called with only its required fields: `coin`, `interval`,
`startTime`, `endTime`, `slippage`, `clientOrderId`, `orderId` produce no
flag when absent. -/
theorem claim_C3_amended :
    (∀ k, marshalPair k Js.jUndefined = [] ∧ marshalPair k Js.jNull = [])
    ∧ (∀ cfg, spawnedInvocation cfg "get_market_data" (some [("dataType", Js.jStr "all_mids")]) =
        some (preamble cfg "market-data" ++ ["--data-type", "all_mids"]))
    ∧ (∀ cfg, spawnedInvocation cfg "get_user_data" (some [("dataType", Js.jStr "user_state")]) =
        some (preamble cfg "user-data" ++ ["--data-type", "user_state"]))
    ∧ (∀ cfg, spawnedInvocation cfg "place_limit_order"
          (some [("coin", Js.jStr "BTC"), ("isBuy", Js.jBool true), ("size", Js.jNum "0.1"),
                 ("price", Js.jNum "50000"), ("timeInForce", Js.jStr "Gtc")]) =
        some (preamble cfg "place-order" ++
          ["--coin", "BTC", "--is-buy", "true", "--size", "0.1", "--price", "50000",
           "--order-type", "\x7b\"limit\":\x7b\"tif\":\"Gtc\"\x7d\x7d",
           "--reduce-only", "false"]))
    ∧ (∀ cfg, spawnedInvocation cfg "place_market_order"
          (some [("coin", Js.jStr "BTC"), ("isBuy", Js.jBool true), ("size", Js.jNum "0.1")]) =
        some (preamble cfg "market-order" ++ ["--coin", "BTC", "--is-buy", "true", "--size", "0.1"]))
    ∧ (∀ cfg, spawnedInvocation cfg "cancel_order"
          (some [("coin", Js.jStr "BTC"), ("orderId", Js.jNum "42")]) =
        some (preamble cfg "cancel-order" ++ ["--coin", "BTC", "--oid", "42"]))
    ∧ (∀ cfg, spawnedInvocation cfg "update_leverage"
          (some [("coin", Js.jStr "BTC"), ("leverage", Js.jNum "10")]) =
        some (preamble cfg "update-leverage" ++
          ["--coin", "BTC", "--leverage", "10", "--is-cross", "true"])) := by
  exact ⟨fun k => ⟨rfl, rfl⟩, fun cfg => rfl, fun cfg => rfl, fun cfg => rfl, fun cfg => rfl,
    fun cfg => rfl, fun cfg => rfl⟩

/-- Claim C4, counterexample.  The handler tests `if (result.error)` — JS
truthiness, not presence.  A bridge result whose `error` field is present
but empty (`\x7b"error": ""\x7d`) is therefore returned as pretty-printed
JSON *without* the error flag, contradicting the claim that every result
whose error field is present is returned as `Error: <message>` with the
error flag set. -/
theorem claim_C4_counterexample :
    callTool cfg0 (fun _ => .ok (.jObj [("error", Js.jStr "")])) "get_user_data"
        (some [("dataType", Js.jStr "user_state")]) =
      .result "\x7b\n  \"error\": \"\"\n\x7d" false := by
  rfl

/-- Claim C4, amended.  Every failure thrown during dispatch or bridge
invocation is caught and returned as the error-flagged text
`Error executing tool <name>: <message>` — and the `result.error` read at
index.ts:471 is itself such a failure when the decoded bridge result is
`null`, since the property access throws a `TypeError` that the catch-all
converts the same way; a bridge result whose `error` read succeeds with a
truthy value is returned as `Error: <message>` with the error flag; every
other bridge result — including one whose `error` field is present but
falsy, such as the empty string — is returned as pretty-printed JSON
without the error flag. -/
theorem claim_C4_amended : ∀ cfg bridge name args?,
    (∀ e, dispatch cfg name args? = .error e →
      callTool cfg bridge name args? =
        .result ("Error executing tool " ++ name ++ ": " ++ errMessage e) true)
    ∧ (∀ argv e, dispatch cfg name args? = .ok argv → bridge argv = .error e →
      callTool cfg bridge name args? =
        .result ("Error executing tool " ++ name ++ ": " ++ errMessage e) true)
    ∧ (∀ argv r e, dispatch cfg name args? = .ok argv → bridge argv = .ok r →
        propAccess r "error" = .error e →
      callTool cfg bridge name args? =
        .result ("Error executing tool " ++ name ++ ": " ++ errMessage e) true)
    ∧ (∀ argv r errv, dispatch cfg name args? = .ok argv → bridge argv = .ok r →
        propAccess r "error" = .ok errv → truthy errv = true →
      callTool cfg bridge name args? =
        .result ("Error: " ++ jsToString errv) true)
    ∧ (∀ argv r errv, dispatch cfg name args? = .ok argv → bridge argv = .ok r →
        propAccess r "error" = .ok errv → truthy errv = false →
      callTool cfg bridge name args? = .result (stringifyPretty r) false) := by
  intro cfg bridge name args?
  refine ⟨?_, ?_, ?_, ?_, ?_⟩
  · intro e he
    simp [callTool, he]
  · intro argv e h1 h2
    simp [callTool, h1, h2]
  · intro argv r e h1 h2 h3
    simp [callTool, h1, h2, h3]
  · intro argv r errv h1 h2 h3 h4
    simp [callTool, h1, h2, h3, h4]
  · intro argv r errv h1 h2 h3 h4
    simp [callTool, h1, h2, h3, h4]

/-- Claim C4, witness: the five branches of `claim_C4_amended` at concrete
inputs — a missing arguments object, a throwing bridge, a bridge result of
JSON `null` (whose `error` read throws the `TypeError`), a truthy business
error, and a plain success payload. -/
theorem claim_C4_witness :
    callTool cfg0 bridge0 "get_market_data" none =
        .result "Error executing tool get_market_data: Arguments are required" true
    ∧ callTool cfg0 (fun _ => .error (.jsError "boom")) "get_market_data"
        (some [("dataType", Js.jStr "meta")]) =
        .result "Error executing tool get_market_data: boom" true
    ∧ callTool cfg0 (fun _ => .ok .jNull) "get_market_data"
        (some [("dataType", Js.jStr "meta")]) =
        .result
          "Error executing tool get_market_data: Cannot read properties of null (reading 'error')"
          true
    ∧ callTool cfg0 (fun _ => .ok (.jObj [("error", Js.jStr "Insufficient margin")]))
        "get_market_data" (some [("dataType", Js.jStr "meta")]) =
        .result "Error: Insufficient margin" true
    ∧ callTool cfg0 (fun _ => .ok (.jObj [("ok", Js.jBool true)])) "get_market_data"
        (some [("dataType", Js.jStr "meta")]) =
        .result "\x7b\n  \"ok\": true\n\x7d" false := by
  refine ⟨?_, ?_, ?_, ?_, ?_⟩
  · exact (claim_C4_amended cfg0 bridge0 "get_market_data" none).1 _ rfl
  · exact (claim_C4_amended cfg0 (fun _ => .error (.jsError "boom")) "get_market_data"
      (some [("dataType", Js.jStr "meta")])).2.1
      (preamble cfg0 "market-data" ++ ["--data-type", "meta"]) (.jsError "boom") rfl rfl
  · exact (claim_C4_amended cfg0 (fun _ => .ok .jNull) "get_market_data"
      (some [("dataType", Js.jStr "meta")])).2.2.1
      (preamble cfg0 "market-data" ++ ["--data-type", "meta"]) .jNull
      (.jsError "Cannot read properties of null (reading 'error')") rfl rfl rfl
  · exact (claim_C4_amended cfg0
      (fun _ => .ok (.jObj [("error", Js.jStr "Insufficient margin")])) "get_market_data"
      (some [("dataType", Js.jStr "meta")])).2.2.2.1
      (preamble cfg0 "market-data" ++ ["--data-type", "meta"])
      (.jObj [("error", Js.jStr "Insufficient margin")]) (Js.jStr "Insufficient margin")
      rfl rfl rfl rfl
  · exact (claim_C4_amended cfg0
      (fun _ => .ok (.jObj [("ok", Js.jBool true)])) "get_market_data"
      (some [("dataType", Js.jStr "meta")])).2.2.2.2
      (preamble cfg0 "market-data" ++ ["--data-type", "meta"])
      (.jObj [("ok", Js.jBool true)]) Js.jUndefined rfl rfl rfl rfl

/-- Claim C5.  A `place_limit_order` call with
`\x7bcoin: "BTC", isBuy: true, size: 0.1, price: 50000, timeInForce: "Gtc"\x7d`
produces a bridge invocation whose command is `place-order` and whose flag
sequence contains the pair `--order-type` followed by exactly the JSON text
`\x7b"limit":\x7b"tif":"Gtc"\x7d\x7d`, for every configuration. -/
theorem claim_C5 : ∀ cfg,
    spawnedInvocation cfg "place_limit_order"
        (some [("coin", Js.jStr "BTC"), ("isBuy", Js.jBool true), ("size", Js.jNum "0.1"),
               ("price", Js.jNum "50000"), ("timeInForce", Js.jStr "Gtc")]) =
      some (preamble cfg "place-order" ++
        ["--coin", "BTC", "--is-buy", "true", "--size", "0.1", "--price", "50000",
         "--order-type", "\x7b\"limit\":\x7b\"tif\":\"Gtc\"\x7d\x7d",
         "--reduce-only", "false"]) := by
  intro cfg
  rfl

/-- Claim C6.  Resource matching checks the literal URI first by exact
string equality, then each declared template in order as an anchored match
(`specMatch` is built from the advertised `uriTemplate` strings of the
catalog, and agrees with the handler's hard-coded regexes on every URI;
by `segMatch_some_iff` each placeholder matches one or more non-`/`
characters).  Extracted values are percent-decoded (`B%54C` decodes to
`BTC`).  Concretely: the all-mids literal matches; `l2-book/BTC` extracts
`coin = "BTC"`; `user/0xABC/state` extracts `address = "0xABC"`; a URI with
an empty or multi-segment placeholder does not match; and
`hyperliquid://bogus` yields the invalid-request protocol error, code
`-32600`. -/
theorem claim_C6 :
    (∀ uri, matchResource uri = specMatch uri)
    ∧ (∀ cfg,
        readResourceStep cfg "hyperliquid://market/l2-book/BTC" =
          .invoke (bridgeArgs cfg "market-data"
            [("dataType", Js.jStr "l2_snapshot"), ("coin", Js.jStr "BTC")])
        ∧ readResourceStep cfg "hyperliquid://market/l2-book/B%54C" =
          .invoke (bridgeArgs cfg "market-data"
            [("dataType", Js.jStr "l2_snapshot"), ("coin", Js.jStr "BTC")])
        ∧ readResourceStep cfg "hyperliquid://user/0xABC/state" =
          .invoke (bridgeArgs cfg "user-data" [("dataType", Js.jStr "user_state")])
        ∧ readResourceStep cfg "hyperliquid://bogus" =
          .protoError (-32600) "Invalid URI format: hyperliquid://bogus")
    ∧ matchResource "hyperliquid://market/all-mids" = .allMids
    ∧ matchResource "hyperliquid://market/l2-book/BTC" = .l2Book "BTC".data
    ∧ matchResource "hyperliquid://user/0xABC/state" = .userState "0xABC".data
    ∧ decodeUriComponent "0xABC".data = some "0xABC"
    ∧ matchResource "hyperliquid://user/0xABC/open-orders" = .openOrders "0xABC".data
    ∧ matchResource "hyperliquid://bogus" = .noMatch
    ∧ matchResource "hyperliquid://market/l2-book/" = .noMatch
    ∧ matchResource "hyperliquid://market/l2-book/A/B" = .noMatch := by
  refine ⟨?_, fun cfg => ⟨rfl, rfl, rfl, rfl⟩, by decide⟩
  intro uri
  unfold matchResource specMatch
  by_cases h : uri = "hyperliquid://market/all-mids"
  · rw [if_pos h, if_pos (by simp [resourceCatalog, h])]
  · rw [if_neg h, if_neg (by simp [resourceCatalog, h])]
    rfl

/-- Claim C7.  Every bridge invocation's argv starts with the command name,
`--secret-key` and the key, `--network` and the network (first conjunct);
then come `--account-address` and the address exactly when one is
configured (a non-empty address string: JS truthiness makes both an unset
variable and an empty string produce no flags, index.ts:44); only then the
call-specific flags. -/
theorem claim_C7 :
    (∀ cfg cmd args, (bridgeArgs cfg cmd args).take 5 =
        [cmd, "--secret-key", cfg.secretKey, "--network", cfg.network])
    ∧ (∀ cfg cmd args a, cfg.accountAddress = some a → a ≠ "" →
        (bridgeArgs cfg cmd args).drop 5 = "--account-address" :: a :: marshalArgs args)
    ∧ (∀ cfg cmd args, cfg.accountAddress = none ∨ cfg.accountAddress = some "" →
        (bridgeArgs cfg cmd args).drop 5 = marshalArgs args) := by
  refine ⟨fun cfg cmd args => rfl, ?_, ?_⟩
  · intro cfg cmd args a ha hne
    simp [bridgeArgs, acctFlags, ha, hne]
  · intro cfg cmd args h
    rcases h with h | h <;> simp [bridgeArgs, acctFlags, h]

/-- Claim C7, witness: a configuration with a non-empty account address
puts `--account-address` right after the fixed preamble; one without puts
the call-specific flags there. -/
theorem claim_C7_witness :
    (bridgeArgs { secretKey := "sk", accountAddress := some "0xACC", network := "testnet" }
        "market-data" [("coin", Js.jStr "BTC")]).drop 5 =
      "--account-address" :: "0xACC" :: marshalArgs [("coin", Js.jStr "BTC")]
    ∧ (bridgeArgs cfg0 "market-data" [("coin", Js.jStr "BTC")]).take 5 =
      ["market-data", "--secret-key", "k", "--network", "mainnet"]
    ∧ (bridgeArgs cfg0 "market-data" [("coin", Js.jStr "BTC")]).drop 5 =
      marshalArgs [("coin", Js.jStr "BTC")] := by
  refine ⟨claim_C7.2.1 _ "market-data" _ "0xACC" rfl (by decide),
    claim_C7.1 cfg0 "market-data" _, claim_C7.2.2 cfg0 "market-data" _ (Or.inl rfl)⟩

/-- Claim C8.  The marshaller's field-name conversion is a total function
of the field name (first conjunct: every present — non-`undefined`,
non-`null` — value is emitted as the flag name followed by `String(value)`),
and on every field name declared in the six tool schemas it produces the
lowercase hyphen-separated form — in particular `startTime ↦ start-time`
and `isBuy ↦ is-buy`. -/
theorem claim_C8 :
    (∀ k v, v ≠ Js.jUndefined → v ≠ Js.jNull →
      marshalPair k v = ["--" ++ flagName k, jsToString v])
    ∧ flagName "dataType" = "data-type" ∧ flagName "coin" = "coin"
    ∧ flagName "interval" = "interval" ∧ flagName "startTime" = "start-time"
    ∧ flagName "endTime" = "end-time" ∧ flagName "isBuy" = "is-buy"
    ∧ flagName "size" = "size" ∧ flagName "price" = "price"
    ∧ flagName "timeInForce" = "time-in-force" ∧ flagName "reduceOnly" = "reduce-only"
    ∧ flagName "clientOrderId" = "client-order-id" ∧ flagName "slippage" = "slippage"
    ∧ flagName "orderId" = "order-id" ∧ flagName "leverage" = "leverage"
    ∧ flagName "isCross" = "is-cross"
    ∧ flagName "oid" = "oid" ∧ flagName "cloid" = "cloid" ∧ flagName "orderType" = "order-type" := by
  refine ⟨?_, by decide⟩
  intro k v h1 h2
  cases v with
  | jUndefined => exact absurd rfl h1
  | jNull => exact absurd rfl h2
  | jBool b => rfl
  | jNum s => rfl
  | jStr s => rfl
  | jArr xs => rfl
  | jObj fs => rfl

/-- Claim C8, witness: the marshalling of a present integer and a present
boolean, matching the spec's `--start-time 100` / `--is-buy true`
example. -/
theorem claim_C8_witness :
    marshalPair "startTime" (Js.jNum "100") = ["--start-time", "100"]
    ∧ marshalPair "isBuy" (Js.jStr "true") = ["--is-buy", "true"] :=
  ⟨claim_C8.1 "startTime" (Js.jNum "100") (fun h => Js.noConfusion h) (fun h => Js.noConfusion h),
   claim_C8.1 "isBuy" (Js.jStr "true") (fun h => Js.noConfusion h) (fun h => Js.noConfusion h)⟩

/-- Claim C9.  For the two parametrised user resources the extracted
address never reaches the bridge: any two matching URIs that differ only in
their (non-empty, slash-free, decodable) address segment produce the very
same bridge invocation — `user-data` with only the data-type flag beyond
the fixed configuration flags — so the returned data always pertains to the
configured account. -/
theorem claim_C9 (cfg : Config) (a b : List Char)
    (ha1 : a ≠ []) (ha2 : a.contains '/' = false)
    (ha3 : (decodeUriComponent a).isSome = true)
    (hb1 : b ≠ []) (hb2 : b.contains '/' = false)
    (hb3 : (decodeUriComponent b).isSome = true) :
    readResourceStep cfg (String.mk ("hyperliquid://user/".data ++ (a ++ "/state".data))) =
      readResourceStep cfg (String.mk ("hyperliquid://user/".data ++ (b ++ "/state".data)))
    ∧ readResourceStep cfg (String.mk ("hyperliquid://user/".data ++ (a ++ "/state".data))) =
      .invoke (bridgeArgs cfg "user-data" [("dataType", Js.jStr "user_state")])
    ∧ readResourceStep cfg
        (String.mk ("hyperliquid://user/".data ++ (a ++ "/open-orders".data))) =
      readResourceStep cfg (String.mk ("hyperliquid://user/".data ++ (b ++ "/open-orders".data)))
    ∧ readResourceStep cfg
        (String.mk ("hyperliquid://user/".data ++ (a ++ "/open-orders".data))) =
      .invoke (bridgeArgs cfg "user-data" [("dataType", Js.jStr "open_orders")]) := by
  have hstate : ∀ (x : List Char), x ≠ [] → x.contains '/' = false →
      (decodeUriComponent x).isSome = true →
      readResourceStep cfg (String.mk ("hyperliquid://user/".data ++ (x ++ "/state".data))) =
        .invoke (bridgeArgs cfg "user-data" [("dataType", Js.jStr "user_state")]) := by
    intro x h1 h2 h3
    unfold readResourceStep
    rw [matchResource_userState x h1 h2]
    obtain ⟨v, hv⟩ := Option.isSome_iff_exists.mp h3
    simp only [hv]
  have horders : ∀ (x : List Char), x ≠ [] → x.contains '/' = false →
      (decodeUriComponent x).isSome = true →
      readResourceStep cfg
          (String.mk ("hyperliquid://user/".data ++ (x ++ "/open-orders".data))) =
        .invoke (bridgeArgs cfg "user-data" [("dataType", Js.jStr "open_orders")]) := by
    intro x h1 h2 h3
    unfold readResourceStep
    rw [matchResource_openOrders x h1 h2]
    obtain ⟨v, hv⟩ := Option.isSome_iff_exists.mp h3
    simp only [hv]
  exact ⟨(hstate a ha1 ha2 ha3).trans (hstate b hb1 hb2 hb3).symm, hstate a ha1 ha2 ha3,
    (horders a ha1 ha2 ha3).trans (horders b hb1 hb2 hb3).symm, horders a ha1 ha2 ha3⟩

/-- Claim C9, witness: two concrete addresses, `0xA` and `0xB`, produce the
same user-state and open-orders invocations. -/
theorem claim_C9_witness :
    readResourceStep cfg0 "hyperliquid://user/0xA/state" =
      readResourceStep cfg0 "hyperliquid://user/0xB/state"
    ∧ readResourceStep cfg0 "hyperliquid://user/0xA/state" =
      .invoke (bridgeArgs cfg0 "user-data" [("dataType", Js.jStr "user_state")])
    ∧ readResourceStep cfg0 "hyperliquid://user/0xA/open-orders" =
      readResourceStep cfg0 "hyperliquid://user/0xB/open-orders"
    ∧ readResourceStep cfg0 "hyperliquid://user/0xA/open-orders" =
      .invoke (bridgeArgs cfg0 "user-data" [("dataType", Js.jStr "open_orders")]) :=
  claim_C9 cfg0 "0xA".data "0xB".data (by decide) (by decide) (by decide)
    (by decide) (by decide) (by decide)

/-- Claim C10.  `listTools()` returns exactly the six fixed descriptors, in
order, with the required-field sets of the source schemas (and
`cancel_order`'s documented `oneOf` alternative); `listTools`,
`listResources` and `listResourceTemplates` are pure functions of no state,
so any two calls return identical descriptor sequences. -/
theorem claim_C10 :
    (∀ u v : Unit, listTools u = listTools v)
    ∧ (∀ u v : Unit, listResources u = listResources v)
    ∧ (∀ u v : Unit, listResourceTemplates u = listResourceTemplates v)
    ∧ (listTools ()).map ToolDescr.tname =
      ["get_market_data", "get_user_data", "place_limit_order", "place_market_order",
       "cancel_order", "update_leverage"]
    ∧ (listTools ()).map ToolDescr.required =
      [["dataType"], ["dataType"], ["coin", "isBuy", "size", "price", "timeInForce"],
       ["coin", "isBuy", "size"], ["coin"], ["coin", "leverage"]]
    ∧ (listTools ()).map ToolDescr.oneOfRequired =
      [[], [], [], [], [["orderId"], ["clientOrderId"]], []]
    ∧ (listResources ()).map ResourceDescr.uri = ["hyperliquid://market/all-mids"] := by
  exact ⟨fun _ _ => rfl, fun _ _ => rfl, fun _ _ => rfl, by decide⟩
